import Mathlib

/-!
Verification of the topic-drift detection and title-suggestion pipeline.

Text is modelled as `List Char`.  Python string primitives (`str.lower`,
`str.strip`, `str.split`, `re.sub`) are given executable models over
`List Char`; character classes (`\w`, `\s`, `str.lower`) are modelled by the
corresponding ASCII predicates `Char.isAlphanum`/`Char.isWhitespace`/
`Char.toLower`.  Python float arithmetic on similarity scores is modelled by
exact rational arithmetic in `ℚ`; the literal `0.15` is the rational
`mkRat 3 20`.  The external collaborators (message store, Groq client,
notification sink) are oracles passed as arguments; the worker's result is
an explicit outcome value recording which terminal state was reached.
-/

/-! ## Models of the Python string primitives -/

/-- Model of Python `\w`: a letter, digit, or underscore. -/
def isWordChar (c : Char) : Bool := c.isAlphanum || c == '_'

/-- Model of `str.lower()`. -/
def pyLower (s : List Char) : List Char := s.map Char.toLower

/-- Model of `str.strip()`: drop leading and trailing whitespace. -/
def pyStrip (s : List Char) : List Char :=
  ((s.dropWhile Char.isWhitespace).reverse.dropWhile Char.isWhitespace).reverse

/-- Model of `re.sub(r"[^\w\s]", " ", text)`: every character that is neither
a word character nor whitespace becomes a single space. -/
def subNonWord (s : List Char) : List Char :=
  s.map (fun c => if !isWordChar c && !c.isWhitespace then ' ' else c)

/-- Worker for `pySplit`, carrying the reversed current token. -/
def pySplitAux : List Char → List Char → List (List Char)
  | [], acc => if acc = [] then [] else [acc.reverse]
  | c :: rest, acc =>
    if c.isWhitespace then
      if acc = [] then pySplitAux rest []
      else acc.reverse :: pySplitAux rest []
    else pySplitAux rest (c :: acc)

/-- Model of Python `str.split()` (no separator): split on whitespace runs,
producing no empty tokens. -/
def pySplit (s : List Char) : List (List Char) := pySplitAux s []

/-- Model of `" ".join(words)`. -/
def joinWords : List (List Char) → List Char
  | [] => []
  | [w] => w
  | w :: x :: ws => w ++ ' ' :: joinWords (x :: ws)

/-- Python truthiness test used on message/topic strings:
`not s or not s.strip()` (empty or whitespace-only). -/
def isBlank (s : List Char) : Bool := s.isEmpty || (pyStrip s).isEmpty

/-- Model of `str.strip(chars)`: drop the given characters from both ends. -/
def pyStripChars (cs : List Char) (s : List Char) : List Char :=
  ((s.dropWhile (fun c => cs.contains c)).reverse.dropWhile (fun c => cs.contains c)).reverse

/-- Model of `str.rstrip(chars)`: drop the given characters from the end. -/
def pyRStripChars (cs : List Char) (s : List Char) : List Char :=
  (s.reverse.dropWhile (fun c => cs.contains c)).reverse

/-! ## zerver/lib/topic_drift.py -/

/-- `normalize_text`: lowercase and strip, replace punctuation by spaces,
split into words, drop empties, and rejoin with single spaces. -/
def normalize_text (text : List Char) : List Char :=
  let lowered := pyStrip (pyLower text)
  let substituted := subNonWord lowered
  let words := (pySplit substituted).filter (fun w => !w.isEmpty)
  joinWords words

/-- The set of words of a text as used by `calculate_word_overlap`:
`set(normalize_text(t).split())`. -/
def wordSet (t : List Char) : Finset (List Char) :=
  (pySplit (normalize_text t)).toFinset

/-- `calculate_word_overlap`: Jaccard similarity of the two word sets, `0.0`
when either set is empty, with a defensive zero check on the union size
before dividing. -/
def calculate_word_overlap (text1 text2 : List Char) : ℚ :=
  let words1 := wordSet text1
  let words2 := wordSet text2
  if words1 = ∅ ∨ words2 = ∅ then 0
  else
    let intersection := (words1 ∩ words2).card
    let union := (words1 ∪ words2).card
    if union = 0 then 0
    else (intersection : ℚ) / (union : ℚ)

/-- The `for msg in recent_messages` counting loop of `detect_topic_drift`:
skip blank entries, count those whose similarity to the title is strictly
below the threshold. -/
def off_topic_count (topic_name : List Char) (min_similarity_threshold : ℚ) :
    List (List Char) → ℕ
  | [] => 0
  | msg :: rest =>
    if isBlank msg then off_topic_count topic_name min_similarity_threshold rest
    else if calculate_word_overlap topic_name msg < min_similarity_threshold then
      off_topic_count topic_name min_similarity_threshold rest + 1
    else off_topic_count topic_name min_similarity_threshold rest

/-- `detect_topic_drift`.  The Python defaults are
`min_similarity_threshold = 0.15` (the rational `mkRat 3 20`) and
`min_off_topic_messages = 2`. -/
def detect_topic_drift (topic_name : List Char) (recent_messages : List (List Char))
    (new_message : List Char) (min_similarity_threshold : ℚ)
    (min_off_topic_messages : ℤ) : Bool :=
  if isBlank topic_name then false
  else if recent_messages = [] ∧ new_message = [] then false
  else
    let new_message_similarity := calculate_word_overlap topic_name new_message
    if min_similarity_threshold ≤ new_message_similarity then false
    else
      let windowCount : ℤ :=
        (off_topic_count topic_name min_similarity_threshold recent_messages : ℤ)
      let total : ℤ :=
        if new_message_similarity < min_similarity_threshold then windowCount + 1 else windowCount
      decide (min_off_topic_messages ≤ total)

/-- Modelled from the spec words of C5 (not from the source): the token
sequence obtained by lowercasing the input, replacing every character that is
neither a word character nor whitespace with a single space, splitting on
whitespace, and dropping empty tokens. -/
def specTokens (text : List Char) : List (List Char) :=
  (pySplit (subNonWord (pyLower text))).filter (fun w => !w.isEmpty)

/-! ## zerver/lib/topic_title_llm.py -/

/-- Truncation applied to each listed message in the prompt:
`content[:500] + "..."` when longer than 500 characters. -/
def truncate500 (content : List Char) : List Char :=
  if 500 < content.length then content.take 500 ++ "...".toList else content

/-- Rendering of one numbered prompt entry: `f"{i}. {content}\n\n"`. -/
def renderEntry (i : ℕ) (content : List Char) : List Char :=
  Nat.toDigits 10 i ++ ". ".toList ++ content ++ "\n\n".toList

/-- The message loop of `suggest_topic_title`: strip each message content,
skip empties, truncate long ones, and append a numbered entry; the counter
of `enumerate(recent_messages, 1)` advances over skipped entries too. -/
def promptLoop : ℕ → List (List Char) → List Char
  | _, [] => []
  | i, msg :: rest =>
    let content := pyStrip msg
    if content.isEmpty then promptLoop (i + 1) rest
    else renderEntry i (truncate500 content) ++ promptLoop (i + 1) rest

/-- The `(index, truncated content)` pairs of the entries the prompt loop
actually renders, in order. -/
def promptPairs : ℕ → List (List Char) → List (ℕ × List Char)
  | _, [] => []
  | i, msg :: rest =>
    let content := pyStrip msg
    if content.isEmpty then promptPairs (i + 1) rest
    else (i, truncate500 content) :: promptPairs (i + 1) rest

/-- Concatenated rendering of a list of numbered entries. -/
def renderPairs : List (ℕ × List Char) → List Char
  | [] => []
  | p :: rest => renderEntry p.1 p.2 ++ renderPairs rest

/-- Opening of the prompt, up to the quoted topic title. -/
def promptHeaderPre : List Char :=
  "You are analyzing a Zulip topic conversation. The current topic title is: \"".toList

/-- Text between the quoted topic title and the message list. -/
def promptHeaderPost : List Char :=
  "\"\n\nRecent messages in this topic:\n".toList

/-- Closing instructions of the prompt. -/
def promptFooter : List Char :=
  ("Based on the conversation above, propose ONE concise topic title "
    ++ "that better reflects what the discussion is actually about.\n\n"
    ++ "Requirements:\n"
    ++ "- Return ONLY the title text, nothing else\n"
    ++ "- No markdown formatting\n"
    ++ "- No explanations or commentary\n"
    ++ "- Keep it concise (ideally 3-8 words)\n"
    ++ "- Make it descriptive of the actual conversation\n\n"
    ++ "Topic title:").toList

/-- The full prompt assembled by `suggest_topic_title`, over the last 10
messages (`messages[-10:]`). -/
def suggestPrompt (topic_name : List Char) (messages : List (List Char)) : List Char :=
  let recent_messages := messages.drop (messages.length - 10)
  promptHeaderPre ++ topic_name ++ promptHeaderPost
    ++ promptLoop 1 recent_messages ++ promptFooter

/-- The quote and backtick characters of `strip('"\x27`')`: double quote
(34), single quote (39), backtick (96). -/
def quoteChars : List Char := [Char.ofNat 34, Char.ofNat 39, Char.ofNat 96]

/-- The trailing punctuation characters of `rstrip(".,;:!?")`. -/
def punctChars : List Char := ".,;:!?".toList

/-- Model of `re.sub(r"^#+\s*", "", s)`: when the string starts with `#`,
remove the leading run of `#` characters and the whitespace following it. -/
def stripHeading (s : List Char) : List Char :=
  match s with
  | [] => []
  | c :: _ =>
    if c == '#' then (s.dropWhile (fun x => x == '#')).dropWhile Char.isWhitespace else s

/-- The response post-processing inside `suggest_topic_title`: strip
whitespace, strip surrounding quotes/backticks, drop a leading markdown
heading marker, drop trailing punctuation, then reject an empty or over-200
character result. -/
def sanitize_title (raw : List Char) : Option (List Char) :=
  let t0 := pyStrip raw
  let t1 := pyStripChars quoteChars t0
  let t2 := stripHeading t1
  let t3 := pyRStripChars punctChars t2
  if t3 = [] ∨ 200 < t3.length then none else some t3

/-- Modelled from the spec words of C7 (not from the source): surrounding
whitespace trimmed, then surrounding quote/backtick characters trimmed, then
a leading markdown-heading marker removed, then trailing punctuation
stripped. -/
def specSanitizeCore (raw : List Char) : List Char :=
  pyRStripChars punctChars (stripHeading (pyStripChars quoteChars (pyStrip raw)))

/-- Outcome of one LLM chat-completion call: a raw response text, or any
exception or timeout raised by the client. -/
inductive LLMResult
  | ok (raw : List Char)
  | error

/-- `suggest_topic_title`.  The Groq credential is `none` when
`settings.GROQ_API_KEY` is absent and `some []` when it is present but
falsy; the LLM client is an oracle from the prompt to an outcome, and every
failure path returns `none`. -/
def suggest_topic_title (topic_name : List Char) (messages : List (List Char))
    (apiKey : Option (List Char)) (llm : List Char → LLMResult) : Option (List Char) :=
  if messages.isEmpty then none
  else
    let prompt := suggestPrompt topic_name messages
    match apiKey with
    | none => none
    | some key =>
      if key.isEmpty then none
      else
        match llm prompt with
        | LLMResult.error => none
        | LLMResult.ok raw => sanitize_title raw

/-- Message row as used by the pipeline. -/
structure MessageRec where
  id : ℤ
  content : List Char
  topic : List Char
  recipient_id : ℤ
  sender_id : ℤ

/-- Stream row as used by the pipeline. -/
structure StreamRec where
  realm_id : ℤ

/-- External message store: message lookup, stream lookup by id and realm,
and the `messages_for_topic` query (realm id, stream recipient id, topic
name, excluded message id), returning contents newest first. -/
structure Store where
  getMessage : ℤ → Option MessageRec
  getStream : ℤ → ℤ → Option StreamRec
  topicMessages : ℤ → ℤ → List Char → ℤ → List (List Char)

/-- The message-dict assembly of `check_and_suggest_topic_title`: reverse
the fetched window to chronological order, keep truthy contents, append the
new message. -/
def assembleMessageDicts (recent_messages : List (List Char)) (new_content : List Char) :
    List (List Char) :=
  recent_messages.reverse.filter (fun c => !c.isEmpty) ++ [new_content]

/-- `check_and_suggest_topic_title`: skip blank topics, fetch the most
recent `recent_message_count` other messages of the topic, run drift
detection with the default thresholds, and only on drift call the LLM
suggestion with the assembled message dicts. -/
def check_and_suggest_topic_title (message : MessageRec) (stream : StreamRec) (st : Store)
    (recent_message_count : ℕ) (apiKey : Option (List Char)) (llm : List Char → LLMResult) :
    Option (List Char) :=
  let topic_name := message.topic
  if isBlank topic_name then none
  else
    let recent_messages :=
      (st.topicMessages stream.realm_id message.recipient_id topic_name message.id).take
        recent_message_count
    if detect_topic_drift topic_name recent_messages message.content (mkRat 3 20) 2 then
      suggest_topic_title topic_name (assembleMessageDicts recent_messages message.content)
        apiKey llm
    else none

/-- Incoming queue event; absent dictionary keys are `none`. -/
structure Event where
  message_id : Option ℤ
  stream_id : Option ℤ
  realm_id : Option ℤ
  topic_name : Option (List Char)
  message_content : Option (List Char)

/-- The notification payload sent to the sender on a suggestion. -/
structure SuggestionPayload where
  event_type : List Char
  message_id : ℤ
  stream_id : ℤ
  current_topic : List Char
  suggested_topic : List Char
  recipients : List ℤ

/-- Terminal state of one `consume` call. -/
inductive ConsumeResult
  | invalidEvent
  | notFound
  | staleContent
  | noSuggestion
  | notified (payload : SuggestionPayload)

/-- `TopicTitleImproverWorker.consume`.  Required fields are validated by
Python truthiness (`not all([...])`): a missing field, a zero id, or an
empty topic name make the event invalid; a missing message or stream is a
silent discard; captured content differing from the current content is a
stale discard; otherwise the drift check and suggestion run, and a usable
suggestion is delivered to the sender only. -/
def consume (event : Event) (st : Store) (apiKey : Option (List Char))
    (llm : List Char → LLMResult) : ConsumeResult :=
  match event.message_id, event.stream_id, event.realm_id, event.topic_name with
  | some message_id, some stream_id, some realm_id, some topic_name =>
    if message_id = 0 ∨ stream_id = 0 ∨ realm_id = 0 ∨ topic_name = [] then
      ConsumeResult.invalidEvent
    else
      match st.getMessage message_id, st.getStream stream_id realm_id with
      | some message, some stream =>
        if some message.content ≠ event.message_content then ConsumeResult.staleContent
        else
          match check_and_suggest_topic_title message stream st 8 apiKey llm with
          | some suggested_title =>
            ConsumeResult.notified
              ⟨"topic_title_suggestion".toList, message_id, stream_id, topic_name,
                suggested_title, [message.sender_id]⟩
          | none => ConsumeResult.noSuggestion
      | _, _ => ConsumeResult.notFound
  | _, _, _, _ => ConsumeResult.invalidEvent

/-- Concrete message used by the staleness witness. -/
def witnessMessage : MessageRec :=
  ⟨1, "fresh content".toList, "topic".toList, 4, 5⟩

/-- Concrete store used by the staleness witness. -/
def witnessStore : Store :=
  ⟨fun i => if i = 1 then some witnessMessage else none,
    fun _ _ => some ⟨7⟩,
    fun _ _ _ _ => []⟩

/-- Concrete event used by the staleness witness: its captured content
differs from the stored message content. -/
def witnessEvent : Event :=
  ⟨some 1, some 2, some 3, some "topic".toList, some "captured old content".toList⟩

/-- Concrete event whose `message_id` is present but zero, used by the
truthiness-validation witness. -/
def falsyEvent : Event :=
  ⟨some 0, some 2, some 3, some "topic".toList, some "content".toList⟩

/-! ## Helper lemmas about the text primitives -/

/-- Rewriting the overlap score into `Rat.divInt` form, which the kernel can
evaluate on concrete inputs. -/
theorem calculate_word_overlap_divInt (t1 t2 : List Char) :
    calculate_word_overlap t1 t2 =
      if wordSet t1 = ∅ ∨ wordSet t2 = ∅ then 0
      else if (wordSet t1 ∪ wordSet t2).card = 0 then 0
      else Rat.divInt ((wordSet t1 ∩ wordSet t2).card : ℤ) ((wordSet t1 ∪ wordSet t2).card : ℤ) := by
  simp only [calculate_word_overlap]
  split
  · rfl
  · split
    · rfl
    · rw [Rat.divInt_eq_div]
      push_cast
      ring

theorem pySplitAux_whitespace_run (ws : List Char) (acc : List Char)
    (h : ∀ c ∈ ws, c.isWhitespace = true) :
    pySplitAux ws acc = if acc = [] then [] else [acc.reverse] := by
  induction ws generalizing acc with
  | nil => rfl
  | cons c rest ih =>
    have hc : c.isWhitespace = true := h c (List.mem_cons_self c rest)
    have hrest : ∀ x ∈ rest, x.isWhitespace = true := fun x hx => h x (List.mem_cons_of_mem c hx)
    have hrun : pySplitAux rest [] = [] := by
      rw [ih [] hrest]
      simp
    by_cases hacc : acc = []
    · subst hacc
      simp only [pySplitAux, hc, if_true, if_pos rfl]
      exact hrun
    · simp only [pySplitAux, hc, if_true, if_neg hacc]
      rw [hrun]

theorem pySplitAux_whitespace_prefix (ws l : List Char)
    (h : ∀ c ∈ ws, c.isWhitespace = true) :
    pySplitAux (ws ++ l) [] = pySplitAux l [] := by
  induction ws with
  | nil => rfl
  | cons c rest ih =>
    have hc : c.isWhitespace = true := h c (List.mem_cons_self c rest)
    have hrest : ∀ x ∈ rest, x.isWhitespace = true := fun x hx => h x (List.mem_cons_of_mem c hx)
    simp only [List.cons_append, pySplitAux, hc, if_true, if_pos rfl]
    exact ih hrest

theorem pySplitAux_whitespace_suffix (l ws : List Char) (acc : List Char)
    (h : ∀ c ∈ ws, c.isWhitespace = true) :
    pySplitAux (l ++ ws) acc = pySplitAux l acc := by
  induction l generalizing acc with
  | nil =>
    rw [List.nil_append, pySplitAux_whitespace_run ws acc h]
    rfl
  | cons c rest ih =>
    by_cases hc : c.isWhitespace = true
    · by_cases hacc : acc = []
      · subst hacc
        simp only [List.cons_append, pySplitAux, hc, if_true, if_pos rfl, List.append_eq]
        exact ih []
      · simp only [List.cons_append, pySplitAux, hc, if_true, if_neg hacc, List.append_eq]
        rw [ih []]
    · simp only [Bool.not_eq_true] at hc
      simp only [List.cons_append, pySplitAux, hc, Bool.false_eq_true, if_false, List.append_eq]
      exact ih (c :: acc)

theorem pySplit_surround_whitespace (pre mid suf : List Char)
    (hpre : ∀ c ∈ pre, c.isWhitespace = true)
    (hsuf : ∀ c ∈ suf, c.isWhitespace = true) :
    pySplit (pre ++ mid ++ suf) = pySplit mid := by
  unfold pySplit
  rw [List.append_assoc, pySplitAux_whitespace_prefix pre (mid ++ suf) hpre,
    pySplitAux_whitespace_suffix mid suf [] hsuf]

theorem pyStrip_decomposition (l : List Char) :
    ∃ pre suf, l = pre ++ pyStrip l ++ suf
      ∧ (∀ c ∈ pre, c.isWhitespace = true) ∧ (∀ c ∈ suf, c.isWhitespace = true) := by
  refine ⟨l.takeWhile Char.isWhitespace,
    ((l.dropWhile Char.isWhitespace).reverse.takeWhile Char.isWhitespace).reverse, ?_, ?_, ?_⟩
  · unfold pyStrip
    conv_lhs => rw [← List.takeWhile_append_dropWhile (p := Char.isWhitespace) (l := l)]
    rw [List.append_assoc]
    congr 1
    conv_lhs => rw [← List.reverse_reverse (l.dropWhile Char.isWhitespace)]
    conv_lhs =>
      rw [← List.takeWhile_append_dropWhile (p := Char.isWhitespace)
        (l := (l.dropWhile Char.isWhitespace).reverse)]
    rw [List.reverse_append]
  · intro c hc
    exact List.mem_takeWhile_imp hc
  · intro c hc
    rw [List.mem_reverse] at hc
    exact List.mem_takeWhile_imp hc

theorem subNonWord_whitespace_fixed (c : Char) (h : c.isWhitespace = true) :
    (if !isWordChar c && !c.isWhitespace then ' ' else c) = c := by
  simp [h]

theorem subNonWord_preserves_whitespace_list (l : List Char)
    (h : ∀ c ∈ l, c.isWhitespace = true) :
    ∀ c ∈ subNonWord l, c.isWhitespace = true := by
  intro c hc
  unfold subNonWord at hc
  rw [List.mem_map] at hc
  obtain ⟨a, ha, rfl⟩ := hc
  rw [subNonWord_whitespace_fixed a (h a ha)]
  exact h a ha

/-- Stripping before the punctuation substitution does not change the token
sequence. -/
theorem pySplit_subNonWord_pyStrip (l : List Char) :
    pySplit (subNonWord (pyStrip l)) = pySplit (subNonWord l) := by
  obtain ⟨pre, suf, hdecomp, hpre, hsuf⟩ := pyStrip_decomposition l
  conv_rhs => rw [hdecomp]
  unfold subNonWord
  rw [List.map_append, List.map_append]
  rw [pySplit_surround_whitespace]
  · intro c hc
    exact subNonWord_preserves_whitespace_list pre hpre c hc
  · intro c hc
    exact subNonWord_preserves_whitespace_list suf hsuf c hc

theorem pySplitAux_tokens_wellformed (s : List Char) (acc : List Char)
    (hacc : ∀ c ∈ acc, c.isWhitespace = false) :
    ∀ w ∈ pySplitAux s acc, w ≠ [] ∧ ∀ c ∈ w, c.isWhitespace = false := by
  induction s generalizing acc with
  | nil =>
    intro w hw
    unfold pySplitAux at hw
    by_cases h : acc = []
    · simp [h] at hw
    · simp only [if_neg h, List.mem_singleton] at hw
      subst hw
      refine ⟨by simpa using h, ?_⟩
      intro c hc
      rw [List.mem_reverse] at hc
      exact hacc c hc
  | cons c rest ih =>
    intro w hw
    unfold pySplitAux at hw
    by_cases hc : c.isWhitespace = true
    · rw [if_pos hc] at hw
      by_cases h : acc = []
      · rw [if_pos h] at hw
        exact ih [] (by intro x hx; simp at hx) w hw
      · rw [if_neg h] at hw
        rcases List.mem_cons.mp hw with hw1 | hw2
        · subst hw1
          refine ⟨by simpa using h, ?_⟩
          intro x hx
          rw [List.mem_reverse] at hx
          exact hacc x hx
        · exact ih [] (by intro x hx; simp at hx) w hw2
    · simp only [Bool.not_eq_true] at hc
      rw [hc] at hw
      simp only [Bool.false_eq_true, if_false] at hw
      refine ih (c :: acc) ?_ w hw
      intro x hx
      rcases List.mem_cons.mp hx with hx1 | hx2
      · subst hx1; exact hc
      · exact hacc x hx2

theorem pySplit_tokens_wellformed (s : List Char) :
    ∀ w ∈ pySplit s, w ≠ [] ∧ ∀ c ∈ w, c.isWhitespace = false :=
  pySplitAux_tokens_wellformed s [] (by intro x hx; simp at hx)

theorem pySplit_filter_nonempty (s : List Char) :
    (pySplit s).filter (fun w => !w.isEmpty) = pySplit s := by
  rw [List.filter_eq_self]
  intro w hw
  have := (pySplit_tokens_wellformed s w hw).1
  simpa [List.isEmpty_iff] using this

theorem pySplitAux_chunk_absorb (w r acc : List Char)
    (h : ∀ c ∈ w, c.isWhitespace = false) :
    pySplitAux (w ++ r) acc = pySplitAux r (w.reverse ++ acc) := by
  induction w generalizing acc with
  | nil => simp
  | cons c rest ih =>
    have hc : c.isWhitespace = false := h c (List.mem_cons_self c rest)
    have hrest : ∀ x ∈ rest, x.isWhitespace = false := fun x hx => h x (List.mem_cons_of_mem c hx)
    simp only [List.cons_append, pySplitAux, hc, Bool.false_eq_true, if_false, List.append_eq]
    rw [ih (c :: acc) hrest]
    simp

/-- Splitting a space-join of well-formed tokens recovers the tokens. -/
theorem pySplit_joinWords (toks : List (List Char))
    (h : ∀ w ∈ toks, w ≠ [] ∧ ∀ c ∈ w, c.isWhitespace = false) :
    pySplit (joinWords toks) = toks := by
  induction toks with
  | nil => rfl
  | cons w rest ih =>
    obtain ⟨hw_ne, hw_chars⟩ := h w (List.mem_cons_self w rest)
    have hrest : ∀ x ∈ rest, x ≠ [] ∧ ∀ c ∈ x, c.isWhitespace = false :=
      fun x hx => h x (List.mem_cons_of_mem w hx)
    cases rest with
    | nil =>
      show pySplit (joinWords [w]) = [w]
      unfold joinWords pySplit
      have hw : w = w ++ [] := by simp
      rw [hw, pySplitAux_chunk_absorb w [] [] (by simpa using hw_chars)]
      unfold pySplitAux
      rw [if_neg (by simpa using hw_ne)]
      simp
    | cons x xs =>
      show pySplit (joinWords (w :: x :: xs)) = w :: x :: xs
      unfold joinWords pySplit
      rw [pySplitAux_chunk_absorb w (' ' :: joinWords (x :: xs)) [] hw_chars]
      unfold pySplitAux
      rw [if_pos (by decide)]
      rw [if_neg (by simpa using hw_ne)]
      rw [List.append_nil, List.reverse_reverse]
      congr 1
      exact ih hrest

/-- The token reading of `normalize_text` agrees with the spec-side token
pipeline: stripping first is invisible to the splitter, and splitting the
space-join of the produced tokens recovers them. -/
theorem pySplit_normalize_text (text : List Char) :
    pySplit (normalize_text text) = specTokens text := by
  simp only [normalize_text]
  rw [pySplit_filter_nonempty]
  rw [pySplit_joinWords _ (pySplit_tokens_wellformed _)]
  rw [pySplit_subNonWord_pyStrip]
  unfold specTokens
  rw [pySplit_filter_nonempty]

/-! ## C3: the similarity score is a well-defined value in [0, 1] -/

/-- C3.  For every pair of input strings, `calculate_word_overlap` returns a
value in [0, 1]; it returns exactly 0 whenever either normalized token set is
empty (in particular when both are empty), and whenever the division is
reached both sets are non-empty and the union size is strictly positive, so
the divisor is never zero. -/
theorem calculate_word_overlap_range (text1 text2 : List Char) :
    0 ≤ calculate_word_overlap text1 text2
    ∧ calculate_word_overlap text1 text2 ≤ 1
    ∧ ((wordSet text1 = ∅ ∨ wordSet text2 = ∅) → calculate_word_overlap text1 text2 = 0)
    ∧ (wordSet text1 ≠ ∅ → wordSet text2 ≠ ∅ → 0 < (wordSet text1 ∪ wordSet text2).card) := by
  have hunion : wordSet text1 ≠ ∅ → wordSet text2 ≠ ∅ →
      0 < (wordSet text1 ∪ wordSet text2).card := by
    intro h1 _
    rw [Finset.card_pos]
    rcases Finset.nonempty_iff_ne_empty.mpr h1 with ⟨a, ha⟩
    exact ⟨a, Finset.mem_union_left _ ha⟩
  refine ⟨?_, ?_, ?_, hunion⟩
  · simp only [calculate_word_overlap]
    split
    · exact le_refl 0
    · split
      · exact le_refl 0
      · positivity
  · simp only [calculate_word_overlap]
    split
    · exact zero_le_one
    · split
      · exact zero_le_one
      · rename_i hne hcard
        push_neg at hne
        have hpos : (0 : ℚ) < ((wordSet text1 ∪ wordSet text2).card : ℚ) := by
          have := hunion hne.1 hne.2
          exact_mod_cast this
        rw [div_le_one hpos]
        have hsub : (wordSet text1 ∩ wordSet text2).card ≤ (wordSet text1 ∪ wordSet text2).card :=
          Finset.card_le_card (fun a ha =>
            Finset.mem_union_left _ (Finset.mem_of_mem_inter_left ha))
        exact_mod_cast hsub
  · intro h
    simp only [calculate_word_overlap]
    rw [if_pos h]

/-- Closed instance of C3, obtained from the theorem at concrete inputs. -/
theorem calculate_word_overlap_range_witness :
    0 ≤ calculate_word_overlap ("a b".toList) ("".toList)
    ∧ calculate_word_overlap ("a b".toList) ("".toList) ≤ 1
    ∧ ((wordSet ("a b".toList) = ∅ ∨ wordSet ("".toList) = ∅) →
        calculate_word_overlap ("a b".toList) ("".toList) = 0)
    ∧ (wordSet ("a b".toList) ≠ ∅ → wordSet ("".toList) ≠ ∅ →
        0 < (wordSet ("a b".toList) ∪ wordSet ("".toList)).card) :=
  calculate_word_overlap_range ("a b".toList) ("".toList)

/-! ## C4: symmetry of the similarity score -/

/-- C4.  For every pair of input strings, the word-overlap similarity is
symmetric: `calculate_word_overlap x y = calculate_word_overlap y x`. -/
theorem calculate_word_overlap_symm (x y : List Char) :
    calculate_word_overlap x y = calculate_word_overlap y x := by
  simp only [calculate_word_overlap]
  by_cases h1 : wordSet x = ∅ <;> by_cases h2 : wordSet y = ∅
  · simp [h1, h2]
  · simp [h1, h2]
  · simp [h1, h2]
  · have hxy : ¬(wordSet x = ∅ ∨ wordSet y = ∅) := by tauto
    have hyx : ¬(wordSet y = ∅ ∨ wordSet x = ∅) := by tauto
    have hne : (wordSet x ∪ wordSet y).Nonempty := by
      rcases Finset.nonempty_iff_ne_empty.mpr h1 with ⟨a, ha⟩
      exact ⟨a, Finset.mem_union_left _ ha⟩
    have hcard : (wordSet x ∪ wordSet y).card ≠ 0 :=
      Nat.pos_iff_ne_zero.mp (Finset.card_pos.mpr hne)
    have hcard2 : (wordSet y ∪ wordSet x).card ≠ 0 := by
      rw [Finset.union_comm]
      exact hcard
    rw [if_neg hxy, if_neg hcard, if_neg hyx, if_neg hcard2]
    rw [Finset.inter_comm, Finset.union_comm]

/-! ## C5: normalize_text produces exactly the spec token sequence -/

/-- C5.  For every input string, the tokens of `normalize_text` are exactly
those obtained by lowercasing, replacing every non-word non-whitespace
character with a single space, splitting on whitespace, and dropping empty
tokens; in particular "Hello, World!!" yields the tokens "hello","world",
and the empty string yields the empty sequence. -/
theorem normalize_text_token_spec :
    (∀ text : List Char, pySplit (normalize_text text) = specTokens text)
    ∧ pySplit (normalize_text ("Hello, World!!".toList)) = ["hello".toList, "world".toList]
    ∧ pySplit (normalize_text ("".toList)) = [] :=
  ⟨pySplit_normalize_text, by decide, by decide⟩

/-! ## C1 and C2: the drift verdict -/

/-- The explicit counting loop agrees with counting the non-blank,
below-threshold window entries. -/
theorem off_topic_count_eq_filter (topic : List Char) (th : ℚ) (msgs : List (List Char)) :
    off_topic_count topic th msgs
      = (msgs.filter
          (fun m => !isBlank m && decide (calculate_word_overlap topic m < th))).length := by
  induction msgs with
  | nil => rfl
  | cons m rest ih =>
    by_cases hb : isBlank m
    · simp [off_topic_count, List.filter_cons, hb, ih]
    · by_cases ho : calculate_word_overlap topic m < th
      · simp [off_topic_count, List.filter_cons, hb, ho, ih]
      · simp [off_topic_count, List.filter_cons, hb, ho, ih]

/-- C1 (amended).  For every non-blank title and every new message whose
similarity to the title is strictly below the threshold, provided the recent
window and the new message are not both empty, `detect_topic_drift` is true
iff the number of non-blank window entries below the threshold plus exactly
one for the new message reaches `min_off_topic_messages`. -/
theorem detect_topic_drift_count_iff (topic : List Char) (recent : List (List Char))
    (new_message : List Char) (th : ℚ) (minOff : ℤ)
    (h_title : isBlank topic = false)
    (h_new : calculate_word_overlap topic new_message < th)
    (h_some : ¬(recent = [] ∧ new_message = [])) :
    (detect_topic_drift topic recent new_message th minOff = true
      ↔ minOff ≤ ((recent.filter
          (fun m => !isBlank m && decide (calculate_word_overlap topic m < th))).length : ℤ) + 1) := by
  simp only [detect_topic_drift, h_title, Bool.false_eq_true, if_false]
  rw [if_neg h_some, if_neg (not_le.mpr h_new), if_pos h_new]
  rw [decide_eq_true_eq]
  rw [off_topic_count_eq_filter]

/-- Closed instance of the amended C1 at the spec's drift-trigger example,
discharging each hypothesis concretely. -/
theorem detect_topic_drift_count_iff_witness :
    isBlank ("project deadline".toList) = false
    ∧ calculate_word_overlap ("project deadline".toList) ("another unrelated comment".toList)
        < mkRat 3 20
    ∧ ¬((["totally unrelated chatter".toList, "more random talk".toList] : List (List Char)) = []
        ∧ "another unrelated comment".toList = [])
    ∧ (detect_topic_drift ("project deadline".toList)
        ["totally unrelated chatter".toList, "more random talk".toList]
        ("another unrelated comment".toList) (mkRat 3 20) 2 = true
      ↔ (2 : ℤ) ≤ (((["totally unrelated chatter".toList, "more random talk".toList]
            : List (List Char)).filter
          (fun m => !isBlank m
            && decide (calculate_word_overlap ("project deadline".toList) m < mkRat 3 20))).length
          : ℤ) + 1) := by
  have hnew : calculate_word_overlap ("project deadline".toList)
      ("another unrelated comment".toList) < mkRat 3 20 := by
    rw [calculate_word_overlap_divInt]
    decide
  exact ⟨by decide, hnew, by decide,
    detect_topic_drift_count_iff _ _ _ _ _ (by decide) hnew (by decide)⟩

/-- C1 counterexample.  With an empty window and an empty new message the
function returns false at the early guard, although the title is non-blank,
the new message is strictly below the threshold, and the claimed count
(0 window entries + 1 for the new message = 1) reaches
`min_off_topic_messages = 1`; the claimed iff therefore fails here. -/
theorem detect_topic_drift_count_iff_counterexample :
    isBlank ("a".toList) = false
    ∧ calculate_word_overlap ("a".toList) ("".toList) < mkRat 3 20
    ∧ (1 : ℤ) ≤ ((([] : List (List Char)).filter
        (fun m => !isBlank m
          && decide (calculate_word_overlap ("a".toList) m < mkRat 3 20))).length : ℤ) + 1
    ∧ detect_topic_drift ("a".toList) [] ("".toList) (mkRat 3 20) 1 = false := by
  refine ⟨by decide, ?_, by decide, by decide⟩
  rw [calculate_word_overlap_divInt]
  decide

/-- C2.  For every non-blank title, any window, and any new message whose
similarity to the title meets or exceeds the threshold,
`detect_topic_drift` returns false regardless of the window contents. -/
theorem detect_topic_drift_on_topic_veto (topic : List Char) (recent : List (List Char))
    (new_message : List Char) (th : ℚ) (minOff : ℤ)
    (h_title : isBlank topic = false)
    (h_sim : th ≤ calculate_word_overlap topic new_message) :
    detect_topic_drift topic recent new_message th minOff = false := by
  simp only [detect_topic_drift, h_title, Bool.false_eq_true, if_false]
  by_cases hempty : recent = [] ∧ new_message = []
  · rw [if_pos hempty]
  · rw [if_neg hempty, if_pos h_sim]

/-- Closed instance of C2 at the spec's drift-veto example. -/
theorem detect_topic_drift_on_topic_veto_witness :
    isBlank ("lunch plans".toList) = false
    ∧ mkRat 3 20 ≤ calculate_word_overlap ("lunch plans".toList)
        ("lunch plans for today are pizza".toList)
    ∧ detect_topic_drift ("lunch plans".toList) ["totally unrelated chatter".toList]
        ("lunch plans for today are pizza".toList) (mkRat 3 20) 2 = false := by
  have hsim : mkRat 3 20 ≤ calculate_word_overlap ("lunch plans".toList)
      ("lunch plans for today are pizza".toList) := by
    rw [calculate_word_overlap_divInt]
    decide
  exact ⟨by decide, hsim,
    detect_topic_drift_on_topic_veto _ _ _ _ _ (by decide) hsim⟩

/-! ## C6: contents of the assembled prompt -/

/-- The prompt loop renders exactly its `promptPairs` entries, in order. -/
theorem promptLoop_eq_renderPairs (i : ℕ) (msgs : List (List Char)) :
    promptLoop i msgs = renderPairs (promptPairs i msgs) := by
  induction msgs generalizing i with
  | nil => rfl
  | cons m rest ih =>
    simp only [promptLoop, promptPairs]
    by_cases h : (pyStrip m).isEmpty
    · simp [h, ih]
    · simp [h, ih, renderPairs]

/-- The listed contents are the stripped, non-blank messages, truncated. -/
theorem promptPairs_map_snd (i : ℕ) (msgs : List (List Char)) :
    (promptPairs i msgs).map Prod.snd
      = ((msgs.map pyStrip).filter (fun c => !c.isEmpty)).map truncate500 := by
  induction msgs generalizing i with
  | nil => rfl
  | cons m rest ih =>
    simp only [promptPairs, List.map_cons, List.filter_cons]
    by_cases h : (pyStrip m).isEmpty
    · simp [h, ih]
    · simp [h, ih]

/-- C6 (amended).  With the pipeline's window bound (at most 9 fetched
messages, so the `messages[-10:]` cut is vacuous), the prompt built for a
drifting topic states the current topic title, and its rendered entries
are exactly the non-blank messages of the chronological window followed by
the triggering message when its stripped content is non-blank, each entry
being the stripped content truncated to 500 characters plus an ellipsis
marker when longer. -/
theorem suggest_prompt_contents (topic_name : List Char) (recent_messages : List (List Char))
    (new_content : List Char)
    (h_len : recent_messages.length ≤ 9)
    (h_drift : detect_topic_drift topic_name recent_messages new_content (mkRat 3 20) 2 = true) :
    (∃ pre suf, suggestPrompt topic_name (assembleMessageDicts recent_messages new_content)
        = pre ++ topic_name ++ suf)
    ∧ suggestPrompt topic_name (assembleMessageDicts recent_messages new_content)
        = promptHeaderPre ++ topic_name ++ promptHeaderPost
          ++ renderPairs (promptPairs 1 (assembleMessageDicts recent_messages new_content))
          ++ promptFooter
    ∧ (promptPairs 1 (assembleMessageDicts recent_messages new_content)).map Prod.snd
        = ((((recent_messages.reverse.filter (fun c => !c.isEmpty)) ++ [new_content]).map
            pyStrip).filter (fun c => !c.isEmpty)).map truncate500 := by
  have hAssembleLen : (assembleMessageDicts recent_messages new_content).length ≤ 10 := by
    unfold assembleMessageDicts
    rw [List.length_append]
    have hfil : (recent_messages.reverse.filter (fun c => !c.isEmpty)).length
        ≤ recent_messages.length := by
      calc (recent_messages.reverse.filter (fun c => !c.isEmpty)).length
          ≤ recent_messages.reverse.length := List.length_filter_le _ _
        _ = recent_messages.length := List.length_reverse _
    have : (recent_messages.reverse.filter (fun c => !c.isEmpty)).length ≤ 9 :=
      le_trans hfil h_len
    simpa using Nat.add_le_add this (le_refl 1)
  have hdrop : (assembleMessageDicts recent_messages new_content).length - 10 = 0 :=
    Nat.sub_eq_zero_of_le hAssembleLen
  have hprompt : suggestPrompt topic_name (assembleMessageDicts recent_messages new_content)
      = promptHeaderPre ++ topic_name ++ promptHeaderPost
        ++ renderPairs (promptPairs 1 (assembleMessageDicts recent_messages new_content))
        ++ promptFooter := by
    simp only [suggestPrompt, hdrop, List.drop_zero]
    rw [promptLoop_eq_renderPairs]
  refine ⟨?_, hprompt, ?_⟩
  · refine ⟨promptHeaderPre,
      promptHeaderPost
        ++ renderPairs (promptPairs 1 (assembleMessageDicts recent_messages new_content))
        ++ promptFooter, ?_⟩
    rw [hprompt]
    simp [List.append_assoc]
  · rw [promptPairs_map_snd]
    rfl

/-- Closed instance of the amended C6 at the drift-trigger example. -/
theorem suggest_prompt_contents_witness :
    (["totally unrelated chatter".toList, "more random talk".toList]
        : List (List Char)).length ≤ 9
    ∧ detect_topic_drift ("project deadline".toList)
        ["totally unrelated chatter".toList, "more random talk".toList]
        ("another unrelated comment".toList) (mkRat 3 20) 2 = true
    ∧ ((∃ pre suf, suggestPrompt ("project deadline".toList)
          (assembleMessageDicts ["totally unrelated chatter".toList, "more random talk".toList]
            ("another unrelated comment".toList))
          = pre ++ "project deadline".toList ++ suf)
      ∧ suggestPrompt ("project deadline".toList)
          (assembleMessageDicts ["totally unrelated chatter".toList, "more random talk".toList]
            ("another unrelated comment".toList))
          = promptHeaderPre ++ "project deadline".toList ++ promptHeaderPost
            ++ renderPairs (promptPairs 1
              (assembleMessageDicts ["totally unrelated chatter".toList, "more random talk".toList]
                ("another unrelated comment".toList)))
            ++ promptFooter
      ∧ (promptPairs 1
          (assembleMessageDicts ["totally unrelated chatter".toList, "more random talk".toList]
            ("another unrelated comment".toList))).map Prod.snd
          = (((((["totally unrelated chatter".toList, "more random talk".toList]
              : List (List Char)).reverse.filter (fun c => !c.isEmpty))
                ++ ["another unrelated comment".toList]).map
              pyStrip).filter (fun c => !c.isEmpty)).map truncate500) := by
  have hdrift : detect_topic_drift ("project deadline".toList)
      ["totally unrelated chatter".toList, "more random talk".toList]
      ("another unrelated comment".toList) (mkRat 3 20) 2 = true := by
    simp only [detect_topic_drift, calculate_word_overlap_divInt, off_topic_count]
    decide
  exact ⟨by decide, hdrift,
    suggest_prompt_contents _ _ _ (by decide) hdrift⟩

/-- C6 counterexample.  A whitespace-only triggering message can itself
trigger drift, yet the prompt loop skips it: only the two window messages
are listed, not the triggering message, so the prompt does not list the
window plus the triggering message as claimed. -/
theorem suggest_prompt_contents_counterexample :
    detect_topic_drift ("project deadline".toList)
      ["more random talk".toList, "totally unrelated chatter".toList] ("   ".toList)
      (mkRat 3 20) 2 = true
    ∧ ((promptPairs 1 (assembleMessageDicts
        ["more random talk".toList, "totally unrelated chatter".toList] ("   ".toList))).map
          Prod.snd).length = 2
    ∧ (assembleMessageDicts
        ["more random talk".toList, "totally unrelated chatter".toList] ("   ".toList)).length
        = 3 := by
  refine ⟨?_, by decide, by decide⟩
  simp only [detect_topic_drift, calculate_word_overlap_divInt, off_topic_count]
  decide

/-! ## C7: sanitization of the raw LLM response -/

/-- C7.  For every raw response, `sanitize_title` returns `none` exactly
when the sanitized core (whitespace and quote/backtick trim, heading-marker
removal, trailing-punctuation strip) is empty or longer than 200
characters, and otherwise returns exactly that core; the raw output
"`# Pizza Planning!`" sanitizes to "Pizza Planning". -/
theorem sanitize_title_spec :
    (∀ raw : List Char,
      (sanitize_title raw = none
        ↔ (specSanitizeCore raw = [] ∨ 200 < (specSanitizeCore raw).length))
      ∧ (∀ t, sanitize_title raw = some t → t = specSanitizeCore raw))
    ∧ sanitize_title ("`# Pizza Planning!`".toList) = some ("Pizza Planning".toList) := by
  constructor
  · intro raw
    have hdef : sanitize_title raw
        = if specSanitizeCore raw = [] ∨ 200 < (specSanitizeCore raw).length then none
          else some (specSanitizeCore raw) := rfl
    rw [hdef]
    by_cases h : specSanitizeCore raw = [] ∨ 200 < (specSanitizeCore raw).length
    · rw [if_pos h]
      refine ⟨⟨fun _ => h, fun _ => rfl⟩, ?_⟩
      intro t ht
      exact absurd ht (by simp)
    · rw [if_neg h]
      refine ⟨⟨fun hsome => absurd hsome (by simp), fun hcond => absurd hcond h⟩, ?_⟩
      intro t ht
      exact (Option.some_inj.mp ht).symm
  · decide

/-- Closed instance of C7 at a concrete raw response. -/
theorem sanitize_title_spec_witness :
    (sanitize_title ("  \"Quarterly Budget Review?\"  ".toList) = none
      ↔ (specSanitizeCore ("  \"Quarterly Budget Review?\"  ".toList) = []
        ∨ 200 < (specSanitizeCore ("  \"Quarterly Budget Review?\"  ".toList)).length))
    ∧ (∀ t, sanitize_title ("  \"Quarterly Budget Review?\"  ".toList) = some t
        → t = specSanitizeCore ("  \"Quarterly Budget Review?\"  ".toList)) :=
  sanitize_title_spec.1 ("  \"Quarterly Budget Review?\"  ".toList)

/-! ## C8: LLM failures degrade to "no suggestion" -/

theorem suggest_topic_title_llm_error (topic_name : List Char) (messages : List (List Char))
    (apiKey : Option (List Char)) :
    suggest_topic_title topic_name messages apiKey (fun _ => LLMResult.error) = none := by
  simp only [suggest_topic_title]
  by_cases h : messages.isEmpty
  · simp [h]
  · simp only [h, Bool.false_eq_true, if_false]
    cases apiKey with
    | none => rfl
    | some key =>
      by_cases hk : key.isEmpty
      · simp [hk]
      · simp [hk]

theorem suggest_topic_title_no_key (topic_name : List Char) (messages : List (List Char))
    (llm : List Char → LLMResult) :
    suggest_topic_title topic_name messages none llm = none := by
  simp only [suggest_topic_title]
  by_cases h : messages.isEmpty <;> simp [h]

theorem suggest_topic_title_empty_key (topic_name : List Char) (messages : List (List Char))
    (llm : List Char → LLMResult) :
    suggest_topic_title topic_name messages (some []) llm = none := by
  simp only [suggest_topic_title]
  by_cases h : messages.isEmpty <;> simp [h]

theorem check_and_suggest_llm_error (message : MessageRec) (stream : StreamRec) (st : Store)
    (n : ℕ) (apiKey : Option (List Char)) :
    check_and_suggest_topic_title message stream st n apiKey (fun _ => LLMResult.error)
      = none := by
  simp only [check_and_suggest_topic_title]
  by_cases hb : isBlank message.topic
  · simp [hb]
  · simp only [hb, Bool.false_eq_true, if_false]
    by_cases hd : detect_topic_drift message.topic
        ((st.topicMessages stream.realm_id message.recipient_id message.topic message.id).take n)
        message.content (mkRat 3 20) 2 = true
    · simp [hd, suggest_topic_title_llm_error]
    · simp [hd]

theorem consume_llm_error_not_notified (event : Event) (st : Store)
    (apiKey : Option (List Char)) :
    ∀ payload, consume event st apiKey (fun _ => LLMResult.error)
      ≠ ConsumeResult.notified payload := by
  intro payload
  rcases event with ⟨mi, si, ri, tn, mc⟩
  cases mi with
  | none => simp [consume]
  | some message_id =>
    cases si with
    | none => simp [consume]
    | some stream_id =>
      cases ri with
      | none => simp [consume]
      | some realm_id =>
        cases tn with
        | none => simp [consume]
        | some topic_name =>
          simp only [consume]
          split
          · simp
          · rcases hm : st.getMessage message_id with _ | message
              <;> rcases hs : st.getStream stream_id realm_id with _ | stream
              <;> simp only [hm, hs]
            · simp
            · simp
            · simp
            · split
              · simp
              · rw [check_and_suggest_llm_error]
                simp

/-- C8.  For every input, an LLM client that raises or times out on every
call yields no suggestion from `suggest_topic_title`; missing or falsy
credentials also yield no suggestion; and under such a client the worker
pipeline completes (to a total outcome value) without ever emitting a
notification. -/
theorem llm_failure_degrades_gracefully :
    ∀ (topic_name : List Char) (messages : List (List Char)) (apiKey : Option (List Char))
      (llm : List Char → LLMResult) (event : Event) (st : Store),
      suggest_topic_title topic_name messages apiKey (fun _ => LLMResult.error) = none
      ∧ suggest_topic_title topic_name messages none llm = none
      ∧ suggest_topic_title topic_name messages (some []) llm = none
      ∧ ∀ payload, consume event st apiKey (fun _ => LLMResult.error)
          ≠ ConsumeResult.notified payload :=
  fun topic_name messages apiKey llm event st =>
    ⟨suggest_topic_title_llm_error topic_name messages apiKey,
     suggest_topic_title_no_key topic_name messages llm,
     suggest_topic_title_empty_key topic_name messages llm,
     consume_llm_error_not_notified event st apiKey⟩

/-- Closed instance of C8 at concrete inputs. -/
theorem llm_failure_degrades_gracefully_witness :
    suggest_topic_title ("topic".toList) ["hello there".toList] (some "key".toList)
        (fun _ => LLMResult.error) = none
    ∧ suggest_topic_title ("topic".toList) ["hello there".toList] none
        (fun _ => LLMResult.ok ("Reply".toList)) = none
    ∧ suggest_topic_title ("topic".toList) ["hello there".toList] (some [])
        (fun _ => LLMResult.ok ("Reply".toList)) = none
    ∧ ∀ payload, consume witnessEvent witnessStore (some "key".toList)
        (fun _ => LLMResult.error) ≠ ConsumeResult.notified payload :=
  llm_failure_degrades_gracefully ("topic".toList) ["hello there".toList] (some "key".toList)
    (fun _ => LLMResult.ok ("Reply".toList)) witnessEvent witnessStore

/-! ## C9: stale captured content stops the pipeline before drift evaluation -/

/-- C9.  For every event that refers to a stored message whose current
content differs from the captured `message_content`, `consume` stops in a
pre-drift terminal state (invalid, not-found, or stale), its result does not
depend on the LLM client or credentials at all (so the LLM is never
called), and no notification is emitted. -/
theorem consume_stale_stops_early (event : Event) (st : Store) (apiKey : Option (List Char))
    (llm : List Char → LLMResult) (message_id : ℤ) (message : MessageRec)
    (h_id : event.message_id = some message_id)
    (h_msg : st.getMessage message_id = some message)
    (h_stale : some message.content ≠ event.message_content) :
    (consume event st apiKey llm = ConsumeResult.invalidEvent
      ∨ consume event st apiKey llm = ConsumeResult.notFound
      ∨ consume event st apiKey llm = ConsumeResult.staleContent)
    ∧ (∀ (apiKey2 : Option (List Char)) (llm2 : List Char → LLMResult),
        consume event st apiKey2 llm2 = consume event st apiKey llm)
    ∧ (∀ payload, consume event st apiKey llm ≠ ConsumeResult.notified payload) := by
  rcases event with ⟨mi, si, ri, tn, mc⟩
  obtain rfl : mi = some message_id := h_id
  have h_stale2 : some message.content ≠ mc := h_stale
  have key : ∃ r, (r = ConsumeResult.invalidEvent ∨ r = ConsumeResult.notFound
        ∨ r = ConsumeResult.staleContent)
      ∧ ∀ (k : Option (List Char)) (l : List Char → LLMResult),
          consume ⟨some message_id, si, ri, tn, mc⟩ st k l = r := by
    cases si with
    | none => exact ⟨ConsumeResult.invalidEvent, Or.inl rfl, fun k l => rfl⟩
    | some stream_id =>
      cases ri with
      | none => exact ⟨ConsumeResult.invalidEvent, Or.inl rfl, fun k l => rfl⟩
      | some realm_id =>
        cases tn with
        | none => exact ⟨ConsumeResult.invalidEvent, Or.inl rfl, fun k l => rfl⟩
        | some topic_name =>
          by_cases hval : message_id = 0 ∨ stream_id = 0 ∨ realm_id = 0 ∨ topic_name = []
          · refine ⟨ConsumeResult.invalidEvent, Or.inl rfl, fun k l => ?_⟩
            simp only [consume]
            rw [if_pos hval]
          · rcases hs : st.getStream stream_id realm_id with _ | stream
            · refine ⟨ConsumeResult.notFound, Or.inr (Or.inl rfl), fun k l => ?_⟩
              simp only [consume]
              rw [if_neg hval]
              simp [h_msg, hs]
            · refine ⟨ConsumeResult.staleContent, Or.inr (Or.inr rfl), fun k l => ?_⟩
              simp only [consume]
              rw [if_neg hval]
              simp [h_msg, hs, h_stale2]
  obtain ⟨r, hr, hall⟩ := key
  refine ⟨?_, ?_, ?_⟩
  · rw [hall apiKey llm]
    tauto
  · intro k2 l2
    rw [hall, hall]
  · intro payload
    rw [hall]
    rcases hr with rfl | rfl | rfl <;> simp

/-- Closed instance of C9 at a concrete stale event. -/
theorem consume_stale_stops_early_witness :
    witnessEvent.message_id = some 1
    ∧ witnessStore.getMessage 1 = some witnessMessage
    ∧ some witnessMessage.content ≠ witnessEvent.message_content
    ∧ ((consume witnessEvent witnessStore (some "key".toList) (fun _ => LLMResult.ok ("Reply".toList))
          = ConsumeResult.invalidEvent
        ∨ consume witnessEvent witnessStore (some "key".toList) (fun _ => LLMResult.ok ("Reply".toList))
          = ConsumeResult.notFound
        ∨ consume witnessEvent witnessStore (some "key".toList) (fun _ => LLMResult.ok ("Reply".toList))
          = ConsumeResult.staleContent)
      ∧ (∀ (apiKey2 : Option (List Char)) (llm2 : List Char → LLMResult),
          consume witnessEvent witnessStore apiKey2 llm2
            = consume witnessEvent witnessStore (some "key".toList)
                (fun _ => LLMResult.ok ("Reply".toList)))
      ∧ (∀ payload, consume witnessEvent witnessStore (some "key".toList)
            (fun _ => LLMResult.ok ("Reply".toList)) ≠ ConsumeResult.notified payload)) :=
  ⟨rfl, rfl, by decide,
    consume_stale_stops_early witnessEvent witnessStore (some "key".toList)
      (fun _ => LLMResult.ok ("Reply".toList)) 1 witnessMessage rfl rfl (by decide)⟩

/-! ## C10: truthiness validation of the required event fields -/

/-- Any event missing one of the four required fields is discarded as
invalid, whatever the store, credentials, and LLM client are. -/
theorem consume_missing_field_invalid (event : Event) (st : Store)
    (apiKey : Option (List Char)) (llm : List Char → LLMResult)
    (h : event.message_id = none ∨ event.stream_id = none ∨ event.realm_id = none
      ∨ event.topic_name = none) :
    consume event st apiKey llm = ConsumeResult.invalidEvent := by
  rcases event with ⟨mi, si, ri, tn, mc⟩
  cases mi with
  | none => rfl
  | some a =>
    cases si with
    | none => rfl
    | some b =>
      cases ri with
      | none => rfl
      | some c =>
        cases tn with
        | none => rfl
        | some d =>
          exfalso
          rcases h with h | h | h | h <;> exact Option.noConfusion h

/-- C10.  Validation is by truthiness, not key presence: an event with any
required field present but falsy (zero id or empty topic name) is discarded
as invalid exactly like an event missing that field — independent of the
store (no fetch), credentials, and LLM client (no call), so no notification
is emitted and drift evaluation is never reached. -/
theorem consume_falsy_fields_invalid (event : Event) (st : Store)
    (apiKey : Option (List Char)) (llm : List Char → LLMResult)
    (h : event.message_id = some 0 ∨ event.stream_id = some 0 ∨ event.realm_id = some 0
      ∨ event.topic_name = some []) :
    consume event st apiKey llm = ConsumeResult.invalidEvent
    ∧ (∀ (st2 : Store) (apiKey2 : Option (List Char)) (llm2 : List Char → LLMResult),
        consume event st2 apiKey2 llm2 = ConsumeResult.invalidEvent)
    ∧ (∀ (event2 : Event) (st2 : Store) (apiKey2 : Option (List Char))
        (llm2 : List Char → LLMResult),
        (event2.message_id = none ∨ event2.stream_id = none ∨ event2.realm_id = none
          ∨ event2.topic_name = none) →
        consume event2 st2 apiKey2 llm2 = ConsumeResult.invalidEvent) := by
  have hmain : ∀ (st2 : Store) (apiKey2 : Option (List Char)) (llm2 : List Char → LLMResult),
      consume event st2 apiKey2 llm2 = ConsumeResult.invalidEvent := by
    intro st2 k2 l2
    rcases event with ⟨mi, si, ri, tn, mc⟩
    cases mi with
    | none => rfl
    | some a =>
      cases si with
      | none => rfl
      | some b =>
        cases ri with
        | none => rfl
        | some c =>
          cases tn with
          | none => rfl
          | some d =>
            have hval : a = 0 ∨ b = 0 ∨ c = 0 ∨ d = [] := by
              rcases h with h | h | h | h
              · exact Or.inl (Option.some_inj.mp h)
              · exact Or.inr (Or.inl (Option.some_inj.mp h))
              · exact Or.inr (Or.inr (Or.inl (Option.some_inj.mp h)))
              · exact Or.inr (Or.inr (Or.inr (Option.some_inj.mp h)))
            simp only [consume]
            rw [if_pos hval]
  exact ⟨hmain st apiKey llm, hmain,
    fun e2 st2 k2 l2 h2 => consume_missing_field_invalid e2 st2 k2 l2 h2⟩

/-- Closed instance of C10 at an event whose message id is present but
zero. -/
theorem consume_falsy_fields_invalid_witness :
    (falsyEvent.message_id = some 0 ∨ falsyEvent.stream_id = some 0
      ∨ falsyEvent.realm_id = some 0 ∨ falsyEvent.topic_name = some [])
    ∧ (consume falsyEvent witnessStore (some "key".toList) (fun _ => LLMResult.ok ("Reply".toList))
          = ConsumeResult.invalidEvent
      ∧ (∀ (st2 : Store) (apiKey2 : Option (List Char)) (llm2 : List Char → LLMResult),
          consume falsyEvent st2 apiKey2 llm2 = ConsumeResult.invalidEvent)
      ∧ (∀ (event2 : Event) (st2 : Store) (apiKey2 : Option (List Char))
          (llm2 : List Char → LLMResult),
          (event2.message_id = none ∨ event2.stream_id = none ∨ event2.realm_id = none
            ∨ event2.topic_name = none) →
          consume event2 st2 apiKey2 llm2 = ConsumeResult.invalidEvent)) :=
  ⟨Or.inl rfl,
    consume_falsy_fields_invalid falsyEvent witnessStore (some "key".toList)
      (fun _ => LLMResult.ok ("Reply".toList)) (Or.inl rfl)⟩
